import Mathlib

/-!
# Verification of the Blackjack program (`cards.py`, `hand_logic.py`, `game.py`)

Shallow embedding of the repository's Python code into Lean 4.

Modelling conventions:
* Python `int` is modelled as `Int` (arbitrary precision in both).
* The deck is modelled as a `List Card` **in deal order**: the head of the
  list is the next card dealt.  Python stores the cards in a list and deals
  with `self.cards.pop()` (from the end), so the Lean list is the reverse of
  the Python list `self.cards`; dealing pops the head here.
* `random.shuffle` is nondeterministic; it is modelled by passing the
  resulting order in as a parameter.  A list is a possible shuffle outcome
  iff it is a permutation of the freshly built 52-card deck.
* `Deck.deal` raises `ValueError` on an empty deck; fallible operations
  return `Option`, with `none` standing for that exception (`EmptyShoe`).
* `int(self.current_bet * 1.5)`: for `0 ≤ b < 2^53` the Python float
  product `b * 1.5` is exact and `int` truncates toward zero, so this equals
  `b + b / 2` on integers; bets in the game are always nonnegative.
-/

namespace Blackjack

/-- Embeds `Suit` from `cards.py`: HEARTS, DIAMONDS, CLUBS, SPADES (in declaration
order, which fixes the deck build order). -/
inductive Suit where
  | hearts | diamonds | clubs | spades
  deriving DecidableEq, Repr

/-- The members of `Suit` in Python declaration order (`for suit in Suit`). -/
def Suit.all : List Suit := [.hearts, .diamonds, .clubs, .spades]

/-- Embeds `Rank` from `cards.py`: TWO .. ACE in declaration order. -/
inductive Rank where
  | two | three | four | five | six | seven | eight | nine | ten
  | jack | queen | king | ace
  deriving DecidableEq, Repr

/-- The members of `Rank` in Python declaration order (`for rank in Rank`). -/
def Rank.all : List Rank :=
  [.two, .three, .four, .five, .six, .seven, .eight, .nine, .ten,
   .jack, .queen, .king, .ace]

/-- Embeds `Rank.base_value` from `cards.py`: numbers at face value, J/Q/K = 10,
Ace = 11. -/
def Rank.base_value : Rank → Int
  | .two => 2 | .three => 3 | .four => 4 | .five => 5 | .six => 6
  | .seven => 7 | .eight => 8 | .nine => 9 | .ten => 10
  | .jack => 10 | .queen => 10 | .king => 10 | .ace => 11

/-- Embeds `Card` from `cards.py`: a suit and a rank. -/
structure Card where
  suit : Suit
  rank : Rank
  deriving DecidableEq, Repr

/-- Embeds `Card.get_value` from `cards.py`: Aces default to 11, or 1 if
`allow_ace_as_one` is true. -/
def Card.get_value (c : Card) (allow_ace_as_one : Bool) : Int :=
  if c.rank = Rank.ace ∧ allow_ace_as_one then 1 else c.rank.base_value

/-- Embeds `Deck._build` from `cards.py`, giving the Python list `self.cards`
(4 suits × 13 ranks, suit-major, append order). -/
def buildOrder : List Card :=
  Suit.all.flatMap fun s => Rank.all.map fun r => Card.mk s r

/-- A freshly built, unshuffled deck **in deal order**: Python pops from the
end of `self.cards`, so the deal order is the reverse of the build order. -/
def freshDeck : List Card := buildOrder.reverse

/-- Embeds `Deck.deal` from `cards.py`: deal from the top, `ValueError` (modelled
as `none`) if empty. -/
def Deck.deal : List Card → Option (Card × List Card)
  | [] => none
  | c :: rest => some (c, rest)

/-- Embeds `Deck.remaining` from `cards.py`. -/
def Deck.remaining (deck : List Card) : Int := deck.length

/-! ## `hand_logic.py` -/

/-- The `while total > 21 and num_aces > 0` loop of `calculate_hand_value`:
each iteration subtracts 10 from the total and decrements the Ace counter. -/
def convertAces (total : Int) : Nat → Int × Nat
  | 0 => (total, 0)
  | n + 1 => if total > 21 then convertAces (total - 10) n else (total, n + 1)

/-- The line `total = sum(card.get_value(allow_ace_as_one=False) for card in cards)`
in `calculate_hand_value`. -/
def baseTotal (cards : List Card) : Int :=
  (cards.map fun c => c.get_value false).sum

/-- The line `num_aces = sum(1 for card in cards if card.rank == Rank.ACE)` in
`calculate_hand_value`. -/
def numAces (cards : List Card) : Nat :=
  (cards.filter fun c => c.rank = Rank.ace).length

/-- Embeds `calculate_hand_value` from `hand_logic.py`: sum base values (Aces as
11), then convert Aces from 11 to 1 until the total is ≤ 21; the returned
flag is true iff an Ace remains counted as 11. -/
def calculate_hand_value (cards : List Card) : Int × Bool :=
  let (total, num_aces) := convertAces (baseTotal cards) (numAces cards)
  (total, num_aces > 0)

/-- Embeds `compare_hands` from `hand_logic.py`: returns the outcome token and the
display message. -/
def compare_hands (player_total dealer_total : Int) : String × String :=
  if player_total > 21 then ("bust", "Bust! Dealer wins.")
  else if dealer_total > 21 then ("win", "Dealer busts! You win.")
  else if player_total = dealer_total then ("push", "Push! It's a tie.")
  else if player_total > dealer_total then ("win", "You win!")
  else ("lose", "Dealer wins.")

/-! ## `game.py`: the `BlackjackGame` state machine -/

/-- The mutable fields of `BlackjackGame.__init__` from `game.py`.  `mode`
and `game_state` are the Python strings (`"practice"`, `"betting"`, …). -/
structure BlackjackGame where
  starting_balance : Int
  target_balance : Int
  mode : String
  balance : Int
  current_bet : Int
  deck : List Card
  player_hand : List Card
  dealer_hand : List Card
  game_state : String
  result_message : String
  deriving DecidableEq, Repr

/-- Embeds `BlackjackGame.__init__` from `game.py`.  The constructor builds a fresh
deck and shuffles it; `shuffled` is the (nondeterministic) result of that
shuffle, legal iff it is a permutation of `freshDeck`. -/
def BlackjackGame.init (starting_balance target_balance : Int) (mode : String)
    (shuffled : List Card) : BlackjackGame :=
  { starting_balance := starting_balance
    target_balance := target_balance
    mode := mode
    balance := starting_balance
    current_bet := 0
    deck := shuffled
    player_hand := []
    dealer_hand := []
    game_state := "betting"
    result_message := "" }

/-- Embeds `BlackjackGame.reset_for_new_hand` from `game.py`: clear hands, state →
`"betting"`, message and bet cleared; if fewer than 10 cards remain the deck
is rebuilt **and shuffled** (`newShuffle` is the shuffle outcome, legal iff
a permutation of `freshDeck`). -/
def reset_for_new_hand (newShuffle : List Card) (g : BlackjackGame) :
    BlackjackGame :=
  let g := { g with player_hand := [], dealer_hand := [],
                    game_state := "betting", result_message := "",
                    current_bet := 0 }
  if Deck.remaining g.deck < 10 then { g with deck := newShuffle } else g

/-- Embeds `BlackjackGame.place_bet` from `game.py`. -/
def place_bet (g : BlackjackGame) (amount : Int) :
    (Bool × String) × BlackjackGame :=
  if g.mode = "practice" then
    ((true, "Practice mode: Dealing cards..."),
     { g with current_bet := 0, game_state := "dealing" })
  else if g.balance ≤ 0 then
    ((false, "Game over. Reset balance to play again."), g)
  else if amount ≤ 0 then
    ((false, "Bet must be greater than 0."), g)
  else if amount > g.balance then
    ((false, "Insufficient balance. You have " ++ toString g.balance ++ "."), g)
  else
    ((true, "Bet placed: " ++ toString amount ++ ". Dealing cards..."),
     { g with current_bet := amount, game_state := "dealing" })

/-- Embeds `BlackjackGame.deal_initial_hands` from `game.py`: deal two cards each
(player first), then resolve natural blackjack.  `int(self.current_bet * 1.5)`
is `b + b / 2` on integers (exact: for the nonnegative bets the game produces,
the float product `b * 1.5` is exact and `int` truncates toward zero). -/
def deal_initial_hands (g : BlackjackGame) : Option BlackjackGame := do
  let (p1, deck) ← Deck.deal g.deck
  let (p2, deck) ← Deck.deal deck
  let (d1, deck) ← Deck.deal deck
  let (d2, deck) ← Deck.deal deck
  let g := { g with player_hand := [p1, p2], dealer_hand := [d1, d2],
                    deck := deck }
  let (player_total, _) := calculate_hand_value g.player_hand
  let (dealer_total, _) := calculate_hand_value g.dealer_hand
  if player_total = 21 ∧ dealer_total ≠ 21 then
    some { g with game_state := "result",
                  result_message := "Natural Blackjack! Player wins!",
                  balance := g.balance + (g.current_bet + g.current_bet / 2) }
  else if dealer_total = 21 ∧ player_total ≠ 21 then
    some { g with game_state := "result",
                  result_message := "Dealer has Blackjack! Dealer wins.",
                  balance := g.balance - g.current_bet }
  else if player_total = 21 ∧ dealer_total = 21 then
    some { g with game_state := "result",
                  result_message := "Both have Blackjack! Push." }
  else
    some { g with game_state := "playing" }

/-- Embeds `BlackjackGame.player_hit` from `game.py`. -/
def player_hit (g : BlackjackGame) : Option ((String × String) × BlackjackGame) :=
  if g.game_state ≠ "playing" then some (("invalid", "Cannot hit now."), g)
  else do
    let (c, deck) ← Deck.deal g.deck
    let g := { g with player_hand := g.player_hand ++ [c], deck := deck }
    let (player_total, _) := calculate_hand_value g.player_hand
    if player_total > 21 then
      let msg := "Player busts with " ++ toString player_total ++ ". Dealer wins."
      some (("bust", msg),
            { g with game_state := "result", result_message := msg,
                     balance := g.balance - g.current_bet })
    else
      some (("hit", "Hit! New total: " ++ toString player_total), g)

/-- The dealer loop of `BlackjackGame.player_stand` from `game.py`:
`while True: if total >= 17: break; draw`.  Returns the final dealer hand
and remaining deck, or `none` if a draw hits an empty deck. -/
def dealerPlay (hand : List Card) : List Card → Option (List Card × List Card)
  | [] =>
    if (calculate_hand_value hand).1 ≥ 17 then some (hand, []) else none
  | c :: rest =>
    if (calculate_hand_value hand).1 ≥ 17 then some (hand, c :: rest)
    else dealerPlay (hand ++ [c]) rest

/-- Embeds `BlackjackGame.player_stand` from `game.py`: dealer plays out, hands are
compared, the balance is settled, then the session-level win/broke check
runs. -/
def player_stand (g : BlackjackGame) : Option ((String × String) × BlackjackGame) :=
  if g.game_state ≠ "playing" then some (("invalid", "Cannot stand now."), g)
  else do
    let (dealer_hand, deck) ← dealerPlay g.dealer_hand g.deck
    let g := { g with dealer_hand := dealer_hand, deck := deck }
    let (player_total, _) := calculate_hand_value g.player_hand
    let (dealer_total, _) := calculate_hand_value g.dealer_hand
    let (result, message) := compare_hands player_total dealer_total
    let g :=
      if result = "win" then { g with balance := g.balance + g.current_bet }
      else if result = "lose" then { g with balance := g.balance - g.current_bet }
      else g
    let g := { g with game_state := "result", result_message := message }
    let g :=
      if g.balance ≥ g.target_balance then { g with game_state := "won" }
      else if g.balance ≤ 0 then
        { g with game_state := "out_of_money",
                 result_message := g.result_message ++ " You are out of money!" }
      else g
    some (("stand", message), g)

/-- Embeds `BlackjackGame.reset_balance_on_broke` from `game.py`: clear hands, bet
and message, restore the balance, state → `"betting"`; if fewer than 10
cards remain the deck is replaced by `Deck()` — the source does **not** call
`shuffle()` here, so the new deck is in the fixed build order. -/
def reset_balance_on_broke (g : BlackjackGame) : BlackjackGame :=
  let g := { g with player_hand := [], dealer_hand := [], current_bet := 0,
                    result_message := "", balance := g.starting_balance,
                    game_state := "betting" }
  if Deck.remaining g.deck < 10 then { g with deck := freshDeck } else g

/-! ## Normal lifecycle

A round in the normal lifecycle (as driven by `window.py`): `place_bet` from
`betting`, `deal_initial_hands` from `dealing`, `player_hit`/`player_stand`
while `playing`, and `reset_for_new_hand` once the round is over.  The
runner below executes such a command sequence and fails (`none`) if either a
command is issued outside its legal state — so a successful run certifies
that the sequence is lifecycle-legal — or a draw hits an empty shoe. -/

/-- A lifecycle command issued by the UI. -/
inductive Cmd where
  | bet (amount : Int)
  | deal
  | hit
  | stand
  | reset (newShuffle : List Card)
  deriving Repr

/-- One lifecycle step: runs the command if it is legal in the current
state (and, for `bet`, accepted), `none` otherwise or on `EmptyShoe`. -/
def lifecycleStep (g : BlackjackGame) : Cmd → Option BlackjackGame
  | .bet amount =>
    if g.game_state = "betting" then
      let (r, g') := place_bet g amount
      if r.1 then some g' else none
    else none
  | .deal =>
    if g.game_state = "dealing" then deal_initial_hands g else none
  | .hit =>
    if g.game_state = "playing" then (player_hit g).map Prod.snd else none
  | .stand =>
    if g.game_state = "playing" then (player_stand g).map Prod.snd else none
  | .reset s =>
    if g.game_state = "result" ∨ g.game_state = "won" ∨
        g.game_state = "out_of_money" then
      some (reset_for_new_hand s g)
    else none

/-- Run a list of lifecycle commands. -/
def lifecycleRun (g : BlackjackGame) : List Cmd → Option BlackjackGame
  | [] => some g
  | c :: cs => (lifecycleStep g c).bind fun g' => lifecycleRun g' cs

/-! ## A concrete run that exhausts the shoe

`c8Shuffle` is a permutation of the 52-card deck (hence a possible outcome
of the constructor's `shuffle`).  Ten plain rounds of 4 cards each leave 12
cards — at or above the low-water mark of 10, so `reset_for_new_hand` does
not rebuild — and the eleventh round then consumes all 12 (initial deal of
4 plus eight non-busting hits on a low hand), after which the next draw hits
an empty shoe. -/

/-- Deal order: ten rounds of (player pair, dealer pair ≥ 17), then
`A♥ A♦ | K♣ K♠` followed by the eight hit cards `A♣ A♠ 2♥ 2♦ 2♣ 2♠ 3♣ 3♠`. -/
def c8Shuffle : List Card :=
  [⟨.hearts, .three⟩, ⟨.diamonds, .three⟩, ⟨.hearts, .king⟩, ⟨.diamonds, .king⟩,
   ⟨.hearts, .four⟩, ⟨.diamonds, .four⟩, ⟨.hearts, .queen⟩, ⟨.diamonds, .queen⟩,
   ⟨.clubs, .four⟩, ⟨.spades, .four⟩, ⟨.clubs, .queen⟩, ⟨.spades, .queen⟩,
   ⟨.hearts, .five⟩, ⟨.diamonds, .five⟩, ⟨.hearts, .jack⟩, ⟨.diamonds, .jack⟩,
   ⟨.clubs, .five⟩, ⟨.spades, .five⟩, ⟨.clubs, .jack⟩, ⟨.spades, .jack⟩,
   ⟨.hearts, .six⟩, ⟨.diamonds, .six⟩, ⟨.hearts, .ten⟩, ⟨.diamonds, .ten⟩,
   ⟨.clubs, .six⟩, ⟨.spades, .six⟩, ⟨.clubs, .ten⟩, ⟨.spades, .ten⟩,
   ⟨.hearts, .seven⟩, ⟨.diamonds, .seven⟩, ⟨.hearts, .nine⟩, ⟨.diamonds, .nine⟩,
   ⟨.clubs, .seven⟩, ⟨.spades, .seven⟩, ⟨.clubs, .nine⟩, ⟨.hearts, .eight⟩,
   ⟨.diamonds, .eight⟩, ⟨.clubs, .eight⟩, ⟨.spades, .nine⟩, ⟨.spades, .eight⟩,
   ⟨.hearts, .ace⟩, ⟨.diamonds, .ace⟩, ⟨.clubs, .king⟩, ⟨.spades, .king⟩,
   ⟨.clubs, .ace⟩, ⟨.spades, .ace⟩, ⟨.hearts, .two⟩, ⟨.diamonds, .two⟩,
   ⟨.clubs, .two⟩, ⟨.spades, .two⟩, ⟨.clubs, .three⟩, ⟨.spades, .three⟩]

/-- One plain round: bet, deal, stand (the dealer pairs all total ≥ 17, so
the dealer never draws), reset.  The reset's shuffle argument `freshDeck` is
trivially a permutation of `freshDeck`; it is in fact unused, as the shoe
never falls below 10 cards at a reset in this run. -/
def c8Round : List Cmd := [.bet 0, .deal, .stand, .reset freshDeck]

/-- Ten plain rounds, then an eleventh round: bet, deal, and eight hits that
empty the shoe without busting. -/
def c8Script : List Cmd :=
  (List.replicate 10 c8Round).flatten ++
    ([.bet 0, .deal] ++ List.replicate 8 .hit)

/-- The initial state: practice mode, constructor-default balances, with
`c8Shuffle` as the constructor's shuffle outcome. -/
def c8Start : BlackjackGame := BlackjackGame.init 2000 25000 "practice" c8Shuffle

/-! ## Spec-side definitions and concrete states used by the theorems -/

/-- The outcome token exactly as claim C2's priority list words it
(spec side, to be compared with `compare_hands` from the source). -/
def specOutcome (player_total dealer_total : Int) : String :=
  if player_total > 21 then "bust"
  else if dealer_total > 21 then "win"
  else if player_total = dealer_total then "push"
  else if player_total > dealer_total then "win"
  else "lose"

/-- The practice-mode invariant of claim C10: practice mode, zero wager,
balance still at the session's starting value. -/
def PracticeInv (g : BlackjackGame) : Prop :=
  g.mode = "practice" ∧ g.current_bet = 0 ∧ g.balance = g.starting_balance

/-- A concrete `dealing` state about to receive a natural blackjack
(player `A♥ K♥`, dealer `5♣ 7♦`) on an odd bet of 101. -/
def c3State : BlackjackGame :=
  { starting_balance := 2000, target_balance := 25000, mode := "classic",
    balance := 2000, current_bet := 101,
    deck := [⟨.hearts, .ace⟩, ⟨.hearts, .king⟩, ⟨.clubs, .five⟩,
             ⟨.diamonds, .seven⟩, ⟨.spades, .two⟩],
    player_hand := [], dealer_hand := [],
    game_state := "dealing", result_message := "" }

/-- A fresh classic-mode game (used to exercise `place_bet`). -/
def c5Classic : BlackjackGame := BlackjackGame.init 2000 25000 "classic" freshDeck

/-- The same game with the balance run down to 0. -/
def c5Broke : BlackjackGame := { c5Classic with balance := 0 }

/-- A concrete mid-round `playing` state: the player stands on 18, the
dealer shows 16 and will draw exactly one card (`5♥`, reaching 21). -/
def c6State : BlackjackGame :=
  { starting_balance := 2000, target_balance := 25000, mode := "classic",
    balance := 500, current_bet := 100,
    deck := [⟨.hearts, .five⟩, ⟨.spades, .two⟩],
    player_hand := [⟨.hearts, .ten⟩, ⟨.diamonds, .eight⟩],
    dealer_hand := [⟨.clubs, .ten⟩, ⟨.hearts, .six⟩],
    game_state := "playing", result_message := "" }

/-- A concrete `out_of_money` state whose shoe has only 3 cards left, used
to exercise `reset_balance_on_broke`. -/
def c9Broke : BlackjackGame :=
  { starting_balance := 2000, target_balance := 25000, mode := "classic",
    balance := 0, current_bet := 50,
    deck := [⟨.hearts, .two⟩, ⟨.spades, .nine⟩, ⟨.clubs, .five⟩],
    player_hand := [⟨.hearts, .king⟩, ⟨.diamonds, .six⟩, ⟨.spades, .seven⟩],
    dealer_hand := [⟨.clubs, .king⟩, ⟨.hearts, .seven⟩],
    game_state := "out_of_money",
    result_message := "Player busts with 23. Dealer wins. You are out of money!" }

/-- A fresh practice-mode game (for the practice-mode invariant). -/
def c10State : BlackjackGame := BlackjackGame.init 2000 25000 "practice" freshDeck

end Blackjack

namespace Blackjack

/-! ## Helper lemmas -/

/-- Characterization of the Ace-conversion loop: starting from `total` with
`n` Aces counted as 11, it performs `d` conversions, where `d` is minimal
with «new total ≤ 21 or all Aces converted», and returns the new total and
the number of unconverted Aces. -/
theorem convertAces_spec (n : Nat) : ∀ total : Int,
    ∃ d : Nat, d ≤ n ∧ convertAces total n = (total - 10 * d, n - d) ∧
      (total - 10 * d ≤ 21 ∨ d = n) ∧ (d = 0 ∨ 21 < total - 10 * d + 10) := by
  induction n with
  | zero =>
    intro total
    exact ⟨0, Nat.le_refl 0, by simp [convertAces], Or.inr rfl, Or.inl rfl⟩
  | succ n ih =>
    intro total
    by_cases h : total > 21
    · obtain ⟨d, hdn, heq, hstop, hlast⟩ := ih (total - 10)
      refine ⟨d + 1, by omega, ?_, ?_, ?_⟩
      · show convertAces total (n + 1) = _
        unfold convertAces
        rw [if_pos h, heq]
        simp only [Prod.mk.injEq]
        constructor
        · push_cast; omega
        · omega
      · rcases hstop with h1 | h2
        · left; push_cast; omega
        · right; omega
      · right
        rcases hlast with h0 | hl
        · subst h0; push_cast; omega
        · push_cast; omega
    · refine ⟨0, Nat.zero_le _, ?_, Or.inl (by omega), Or.inl rfl⟩
      unfold convertAces
      rw [if_neg h]
      simp

/-! ## Claims -/

/-- C1: `calculate_hand_value` sums each card's value with every Ace as 11,
then subtracts 10 once per downgraded Ace — downgrading exactly while the
total exceeds 21 and an un-downgraded Ace remains — and the soft flag is
true iff an Ace is still counted as 11 at the end; with the three examples
`[A,K] = (21, true)`, `[A,A] = (12, true)`, `[A,A,A,A,10] = (14, false)`. -/
theorem calculate_hand_value_spec :
    (∀ cards : List Card, ∃ d : Nat, d ≤ numAces cards ∧
      (calculate_hand_value cards).1 = baseTotal cards - 10 * d ∧
      ((calculate_hand_value cards).2 = true ↔ d < numAces cards) ∧
      (baseTotal cards - 10 * d ≤ 21 ∨ d = numAces cards) ∧
      (d = 0 ∨ 21 < baseTotal cards - 10 * d + 10)) ∧
    calculate_hand_value [⟨.hearts, .ace⟩, ⟨.spades, .king⟩] = (21, true) ∧
    calculate_hand_value [⟨.hearts, .ace⟩, ⟨.spades, .ace⟩] = (12, true) ∧
    calculate_hand_value [⟨.hearts, .ace⟩, ⟨.diamonds, .ace⟩, ⟨.clubs, .ace⟩,
      ⟨.spades, .ace⟩, ⟨.hearts, .ten⟩] = (14, false) := by
  refine ⟨fun cards => ?_, by decide, by decide, by decide⟩
  obtain ⟨d, hdn, heq, hstop, hlast⟩ :=
    convertAces_spec (numAces cards) (baseTotal cards)
  refine ⟨d, hdn, ?_, ?_, hstop, hlast⟩
  · simp [calculate_hand_value, heq]
  · simp [calculate_hand_value, heq]

/-- C2: `compare_hands` decides the outcome by exactly the priority
player-bust, then dealer-bust, then push, then player-higher, else lose; in
particular `compare_hands 20 25` is a win for the player. -/
theorem compare_hands_spec :
    (∀ player_total dealer_total : Int,
      (compare_hands player_total dealer_total).1 =
        specOutcome player_total dealer_total) ∧
    (compare_hands 20 25).1 = "win" := by
  refine ⟨fun p d => ?_, by decide⟩
  unfold compare_hands specOutcome
  split_ifs <;> rfl

/-- C3: `deal_initial_hands` draws two cards for the player then two for
the dealer and resolves natural blackjack as four mutually exclusive cases:
player-only 21 adds `⌊wager × 1.5⌋` (3:2, fraction truncated on the integer
balance) and moves to `result`; dealer-only 21 subtracts the wager and moves
to `result`; both 21 leave the balance unchanged and move to `result`;
neither moves to `playing`. -/
theorem deal_initial_hands_spec (g : BlackjackGame)
    (p1 p2 d1 d2 : Card) (rest : List Card)
    (hdeck : g.deck = p1 :: p2 :: d1 :: d2 :: rest)
    (_hbet : 0 ≤ g.current_bet) :
    ∃ g', deal_initial_hands g = some g' ∧
      g'.player_hand = [p1, p2] ∧ g'.dealer_hand = [d1, d2] ∧
      g'.deck = rest ∧
      ((calculate_hand_value [p1, p2]).1 = 21 ∧
          (calculate_hand_value [d1, d2]).1 ≠ 21 →
        g'.balance = g.balance + 3 * g.current_bet / 2 ∧
        g'.game_state = "result") ∧
      ((calculate_hand_value [d1, d2]).1 = 21 ∧
          (calculate_hand_value [p1, p2]).1 ≠ 21 →
        g'.balance = g.balance - g.current_bet ∧ g'.game_state = "result") ∧
      ((calculate_hand_value [p1, p2]).1 = 21 ∧
          (calculate_hand_value [d1, d2]).1 = 21 →
        g'.balance = g.balance ∧ g'.game_state = "result") ∧
      ((calculate_hand_value [p1, p2]).1 ≠ 21 ∧
          (calculate_hand_value [d1, d2]).1 ≠ 21 →
        g'.balance = g.balance ∧ g'.game_state = "playing") := by
  simp only [deal_initial_hands, hdeck, Deck.deal, Option.bind_eq_bind,
    Option.some_bind]
  split_ifs with h1 h2 h3
  · refine ⟨_, rfl, by simp, by simp, by simp, fun _ => ⟨by simp; omega, by simp⟩,
      fun hc => absurd h1.1 hc.2, fun hc => absurd hc.2 h1.2,
      fun hc => absurd h1.1 hc.1⟩
  · refine ⟨_, rfl, by simp, by simp, by simp, fun hc => absurd h2.1 hc.2,
      fun _ => ⟨by simp, by simp⟩, fun hc => absurd hc.1 h2.2,
      fun hc => absurd h2.1 hc.2⟩
  · refine ⟨_, rfl, by simp, by simp, by simp, fun hc => absurd h3.2 hc.2,
      fun hc => absurd h3.1 hc.2, fun _ => ⟨by simp, by simp⟩,
      fun hc => absurd h3.1 hc.1⟩
  · refine ⟨_, rfl, by simp, by simp, by simp, ?_, ?_, ?_,
      fun _ => ⟨by simp, by simp⟩⟩
    · intro hc; exact absurd hc (by tauto)
    · intro hc; exact absurd hc (by tauto)
    · intro hc; exact absurd hc (by tauto)

/-- Witness for C3 at `c3State`: the player is dealt `A♥ K♥` (a natural
21), the dealer `5♣ 7♦`; the 101-unit wager pays `⌊151.5⌋ = 151`. -/
theorem deal_initial_hands_spec_witness :
    c3State.deck = ⟨.hearts, .ace⟩ :: ⟨.hearts, .king⟩ :: ⟨.clubs, .five⟩ ::
      ⟨.diamonds, .seven⟩ :: [⟨.spades, .two⟩] ∧
    0 ≤ c3State.current_bet ∧
    (∃ g', deal_initial_hands c3State = some g' ∧
      g'.player_hand = [⟨.hearts, .ace⟩, ⟨.hearts, .king⟩] ∧
      g'.dealer_hand = [⟨.clubs, .five⟩, ⟨.diamonds, .seven⟩] ∧
      g'.deck = [⟨.spades, .two⟩] ∧
      ((calculate_hand_value [⟨.hearts, .ace⟩, ⟨.hearts, .king⟩]).1 = 21 ∧
          (calculate_hand_value [⟨.clubs, .five⟩, ⟨.diamonds, .seven⟩]).1 ≠ 21 →
        g'.balance = c3State.balance + 3 * c3State.current_bet / 2 ∧
        g'.game_state = "result") ∧
      ((calculate_hand_value [⟨.clubs, .five⟩, ⟨.diamonds, .seven⟩]).1 = 21 ∧
          (calculate_hand_value [⟨.hearts, .ace⟩, ⟨.hearts, .king⟩]).1 ≠ 21 →
        g'.balance = c3State.balance - c3State.current_bet ∧
        g'.game_state = "result") ∧
      ((calculate_hand_value [⟨.hearts, .ace⟩, ⟨.hearts, .king⟩]).1 = 21 ∧
          (calculate_hand_value [⟨.clubs, .five⟩, ⟨.diamonds, .seven⟩]).1 = 21 →
        g'.balance = c3State.balance ∧ g'.game_state = "result") ∧
      ((calculate_hand_value [⟨.hearts, .ace⟩, ⟨.hearts, .king⟩]).1 ≠ 21 ∧
          (calculate_hand_value [⟨.clubs, .five⟩, ⟨.diamonds, .seven⟩]).1 ≠ 21 →
        g'.balance = c3State.balance ∧ g'.game_state = "playing")) :=
  ⟨rfl, by decide, deal_initial_hands_spec c3State _ _ _ _ _ rfl (by decide)⟩

/-- C5: `place_bet` returns a success flag and message (it never throws):
practice mode always succeeds with wager 0 and state `dealing`; otherwise
a balance of 0 or less fails with the game-over message, a non-positive
amount fails as invalid, an amount above the balance fails as insufficient,
and a valid amount is stored as the wager with state `dealing`. -/
theorem place_bet_spec (g : BlackjackGame) (amount : Int) :
    (g.mode = "practice" →
      place_bet g amount = ((true, "Practice mode: Dealing cards..."),
        { g with current_bet := 0, game_state := "dealing" })) ∧
    (g.mode ≠ "practice" → g.balance ≤ 0 →
      place_bet g amount =
        ((false, "Game over. Reset balance to play again."), g)) ∧
    (g.mode ≠ "practice" → 0 < g.balance → amount ≤ 0 →
      place_bet g amount = ((false, "Bet must be greater than 0."), g)) ∧
    (g.mode ≠ "practice" → 0 < g.balance → 0 < amount → g.balance < amount →
      place_bet g amount =
        ((false, "Insufficient balance. You have " ++ toString g.balance ++ "."),
          g)) ∧
    (g.mode ≠ "practice" → 0 < g.balance → 0 < amount → amount ≤ g.balance →
      place_bet g amount =
        ((true, "Bet placed: " ++ toString amount ++ ". Dealing cards..."),
          { g with current_bet := amount, game_state := "dealing" })) := by
  refine ⟨?_, ?_, ?_, ?_, ?_⟩
  · intro hm; unfold place_bet; rw [if_pos hm]
  · intro hm hb; unfold place_bet; rw [if_neg hm, if_pos hb]
  · intro hm hb ha; unfold place_bet
    rw [if_neg hm, if_neg (not_le.mpr hb), if_pos ha]
  · intro hm hb ha hlt; unfold place_bet
    rw [if_neg hm, if_neg (not_le.mpr hb), if_neg (not_le.mpr ha), if_pos hlt]
  · intro hm hb ha hle; unfold place_bet
    rw [if_neg hm, if_neg (not_le.mpr hb), if_neg (not_le.mpr ha),
      if_neg (not_lt.mpr hle)]

/-- Witness for C5: every branch of `place_bet` exercised at concrete
states — practice mode, broke classic game, bet of 0, bet of 5000 against a
balance of 2000, and a valid bet of 500. -/
theorem place_bet_spec_witness :
    place_bet c10State 7 = ((true, "Practice mode: Dealing cards..."),
      { c10State with current_bet := 0, game_state := "dealing" }) ∧
    place_bet c5Broke 100 =
      ((false, "Game over. Reset balance to play again."), c5Broke) ∧
    place_bet c5Classic 0 = ((false, "Bet must be greater than 0."), c5Classic) ∧
    place_bet c5Classic 5000 =
      ((false, "Insufficient balance. You have " ++ toString c5Classic.balance
        ++ "."), c5Classic) ∧
    place_bet c5Classic 500 =
      ((true, "Bet placed: " ++ toString (500 : Int) ++ ". Dealing cards..."),
        { c5Classic with current_bet := 500, game_state := "dealing" }) :=
  ⟨(place_bet_spec c10State 7).1 rfl,
   (place_bet_spec c5Broke 100).2.1 (by decide) (by decide),
   (place_bet_spec c5Classic 0).2.2.1 (by decide) (by decide) (by decide),
   (place_bet_spec c5Classic 5000).2.2.2.1 (by decide) (by decide) (by decide)
     (by decide),
   (place_bet_spec c5Classic 500).2.2.2.2 (by decide) (by decide) (by decide)
     (by decide)⟩

/-- Every hand `dealerPlay` returns extends the hand it was given. -/
theorem dealerPlay_extends : ∀ (deck hand h2 d2 : List Card),
    dealerPlay hand deck = some (h2, d2) → hand.length ≤ h2.length := by
  intro deck
  induction deck with
  | nil =>
    intro hand h2 d2 h
    unfold dealerPlay at h
    split_ifs at h
    · simp only [Option.some.injEq, Prod.mk.injEq] at h
      rw [h.1]
  | cons c rest ih =>
    intro hand h2 d2 h
    unfold dealerPlay at h
    split_ifs at h
    · simp only [Option.some.injEq, Prod.mk.injEq] at h
      rw [h.1]
    · have := ih (hand ++ [c]) h2 d2 h
      simp at this
      omega

/-- C4: the dealer loop of `player_stand` stops as soon as the total is 17
or more — in particular a soft 17 draws nothing — while a total of 16
always draws a card (the loop steps once), and any hand it finishes with
totals at least 17. -/
theorem dealer_play_spec (hand deck : List Card) :
    (17 ≤ (calculate_hand_value hand).1 →
      dealerPlay hand deck = some (hand, deck)) ∧
    ((calculate_hand_value hand).1 = 17 ∧ (calculate_hand_value hand).2 = true →
      dealerPlay hand deck = some (hand, deck)) ∧
    ((calculate_hand_value hand).1 = 16 → ∀ c rest, deck = c :: rest →
      dealerPlay hand deck = dealerPlay (hand ++ [c]) rest ∧
      (∀ h2 d2 : List Card, dealerPlay hand deck = some (h2, d2) →
        hand.length + 1 ≤ h2.length)) ∧
    (∀ h2 d2 : List Card, dealerPlay hand deck = some (h2, d2) →
      17 ≤ (calculate_hand_value h2).1) := by
  refine ⟨?_, ?_, ?_, ?_⟩
  · intro h17
    cases deck <;> simp [dealerPlay, h17]
  · intro hsoft
    cases deck <;> simp [dealerPlay, hsoft.1]
  · intro h16 c rest hdeck
    subst hdeck
    have hlt : ¬ 17 ≤ (calculate_hand_value hand).1 := by omega
    constructor
    · simp [dealerPlay, hlt]
    · intro h2 d2 h
      simp only [dealerPlay, if_neg hlt] at h
      have := dealerPlay_extends rest (hand ++ [c]) h2 d2 h
      simp at this
      omega
  · induction deck generalizing hand with
    | nil =>
      intro h2 d2 h
      unfold dealerPlay at h
      split_ifs at h with h17
      simp only [Option.some.injEq, Prod.mk.injEq] at h
      rw [← h.1]
      exact h17
    | cons c rest ih =>
      intro h2 d2 h
      unfold dealerPlay at h
      split_ifs at h with h17
      · simp only [Option.some.injEq, Prod.mk.injEq] at h
        rw [← h.1]
        exact h17
      · exact ih (hand ++ [c]) h2 d2 h

/-- Witness for C4: a soft 17 (`A♥ 6♣`) draws nothing from a nonempty shoe,
and a hard 16 (`K♥ 6♦`) takes the top card of the shoe. -/
theorem dealer_play_spec_witness :
    dealerPlay [⟨.hearts, .ace⟩, ⟨.clubs, .six⟩] [⟨.spades, .five⟩] =
      some ([⟨.hearts, .ace⟩, ⟨.clubs, .six⟩], [⟨.spades, .five⟩]) ∧
    dealerPlay [⟨.hearts, .king⟩, ⟨.diamonds, .six⟩] [⟨.spades, .five⟩] =
      dealerPlay [⟨.hearts, .king⟩, ⟨.diamonds, .six⟩, ⟨.spades, .five⟩] [] :=
  ⟨(dealer_play_spec [⟨.hearts, .ace⟩, ⟨.clubs, .six⟩] [⟨.spades, .five⟩]).2.1
      ⟨by decide, by decide⟩,
   by
     have h := (dealer_play_spec [⟨.hearts, .king⟩, ⟨.diamonds, .six⟩]
       [⟨.spades, .five⟩]).2.2.1 (by decide) ⟨.spades, .five⟩ [] rfl
     simpa using h.1⟩

/-- C7: called in any state other than `playing`, `player_hit` and
`player_stand` return the `invalid` outcome with the unchanged state — no
field (hands, deck, balance, wager, game state, message) is mutated. -/
theorem invalid_state_no_mutation (g : BlackjackGame)
    (hg : g.game_state ≠ "playing") :
    player_hit g = some (("invalid", "Cannot hit now."), g) ∧
    player_stand g = some (("invalid", "Cannot stand now."), g) := by
  constructor
  · unfold player_hit
    rw [if_pos hg]
  · unfold player_stand
    rw [if_pos hg]

/-- Witness for C7 at a `betting`-state game: both calls return `invalid`
and the very same state. -/
theorem invalid_state_no_mutation_witness :
    player_hit c10State = some (("invalid", "Cannot hit now."), c10State) ∧
    player_stand c10State = some (("invalid", "Cannot stand now."), c10State) :=
  invalid_state_no_mutation c10State (by decide)

set_option linter.unreachableTactic false in
set_option linter.unusedTactic false in
/-- C6: after the dealer's play-out, `player_stand` adjusts the balance
only for a `win` (+wager) or a `lose` (−wager) outcome, `push` and `bust`
leaving it unchanged; the state becomes `result`, and then the session
check runs with the `won` condition (balance ≥ target) evaluated before —
and taking priority over — the `out_of_money` condition (balance ≤ 0). -/
theorem player_stand_settlement (g : BlackjackGame)
    (hg : g.game_state = "playing") (dh dk : List Card)
    (hdp : dealerPlay g.dealer_hand g.deck = some (dh, dk)) :
    ∃ msg g', player_stand g = some (("stand", msg), g') ∧
      ((compare_hands (calculate_hand_value g.player_hand).1
          (calculate_hand_value dh).1).1 = "win" →
        g'.balance = g.balance + g.current_bet) ∧
      ((compare_hands (calculate_hand_value g.player_hand).1
          (calculate_hand_value dh).1).1 = "lose" →
        g'.balance = g.balance - g.current_bet) ∧
      ((compare_hands (calculate_hand_value g.player_hand).1
          (calculate_hand_value dh).1).1 = "push" ∨
       (compare_hands (calculate_hand_value g.player_hand).1
          (calculate_hand_value dh).1).1 = "bust" →
        g'.balance = g.balance) ∧
      (g.target_balance ≤ g'.balance → g'.game_state = "won") ∧
      (g'.balance < g.target_balance → g'.balance ≤ 0 →
        g'.game_state = "out_of_money") ∧
      (g'.balance < g.target_balance → 0 < g'.balance →
        g'.game_state = "result") := by
  have hne : ¬ (g.game_state ≠ "playing") := fun h => h hg
  rcases hcmp : compare_hands (calculate_hand_value g.player_hand).1
    (calculate_hand_value dh).1 with ⟨r, m⟩
  simp only [player_stand, if_neg hne, hdp, Option.bind_eq_bind,
    Option.some_bind, hcmp]
  split_ifs with h1 h2 h3 h4 h5 h6 h7 h8 <;>
    refine ⟨_, _, rfl, ?_, ?_, ?_, ?_, ?_, ?_⟩ <;>
    first
      | (intro h; rfl)
      | (intro h _; rfl)
      | (intro h; exact absurd h h1)
      | (intro h; exact absurd h h4)
      | (intro h; exact absurd (h1.symm.trans h) (by decide))
      | (intro h; exact absurd (h4.symm.trans h) (by decide))
      | (rintro (h | h) <;> exact absurd (h1.symm.trans h) (by decide))
      | (rintro (h | h) <;> exact absurd (h4.symm.trans h) (by decide))
      | (intro h; exfalso; omega)
      | (intro h h'; exfalso; omega)
      | (intro h; exfalso; dsimp only at *; omega)
      | (intro h h'; exfalso; dsimp only at *; omega)

/-- Witness for C6 at `c6State`: the player stands on 18, the dealer draws
`5♥` to 21 and the player loses the 100-unit wager. -/
theorem player_stand_settlement_witness :
    ∃ msg g', player_stand c6State = some (("stand", msg), g') ∧
      g'.balance = c6State.balance - c6State.current_bet ∧
      g'.game_state = "result" := by
  obtain ⟨msg, g', heq, -, hlose, -, -, -, hres⟩ :=
    player_stand_settlement c6State rfl
      [⟨.clubs, .ten⟩, ⟨.hearts, .six⟩, ⟨.hearts, .five⟩] [⟨.spades, .two⟩]
      (by decide)
  refine ⟨msg, g', heq, hlose (by decide), hres ?_ ?_⟩ <;>
    rw [hlose (by decide)] <;> decide

/-- C8: a lifecycle-legal run that draws from an empty shoe.  `c8Shuffle`
is a permutation of the 52-card deck, so it is a possible outcome of the
constructor's shuffle; after ten legal rounds of 4 cards each the shoe
holds 12 cards — not below the low-water mark of 10, so
`reset_for_new_hand` does not rebuild it — and the eleventh round's initial
deal plus eight legal non-busting hits empty it while the hand is still
`playing`; the next `player_hit` then draws from an empty shoe
(`EmptyShoe`, Python's `ValueError`). -/
theorem empty_shoe_draw_reachable :
    c8Shuffle.Perm freshDeck ∧
    (lifecycleRun c8Start c8Script).map
      (fun g => (g.game_state, player_hit g)) = some ("playing", none) :=
  ⟨by decide, by decide⟩

/-- C9: `reset_balance_on_broke` clears both hands, the wager and the
message, restores the balance to the session's starting balance and sets
the state to `betting`; when fewer than 10 cards remain it replaces the
shoe by the rebuilt `Deck()`, which the source leaves in the fixed
canonical build order — `shuffle()` is **not** called, so the new shoe is
the same constant `freshDeck` on every run, not a re-randomized order. -/
theorem reset_balance_on_broke_spec (g : BlackjackGame) :
    (reset_balance_on_broke g).player_hand = [] ∧
    (reset_balance_on_broke g).dealer_hand = [] ∧
    (reset_balance_on_broke g).current_bet = 0 ∧
    (reset_balance_on_broke g).result_message = "" ∧
    (reset_balance_on_broke g).balance = g.starting_balance ∧
    (reset_balance_on_broke g).game_state = "betting" ∧
    (Deck.remaining g.deck < 10 → (reset_balance_on_broke g).deck = freshDeck) ∧
    (¬ Deck.remaining g.deck < 10 → (reset_balance_on_broke g).deck = g.deck) := by
  unfold reset_balance_on_broke
  dsimp only
  split_ifs with h
  · exact ⟨rfl, rfl, rfl, rfl, rfl, rfl, fun _ => rfl, fun hn => absurd h hn⟩
  · exact ⟨rfl, rfl, rfl, rfl, rfl, rfl, fun hh => absurd hh h, fun _ => rfl⟩

/-- Witness for C9 at `c9Broke` (an `out_of_money` state with a 3-card
shoe): everything is cleared and the new shoe is exactly `freshDeck`, the
unshuffled canonical build order. -/
theorem reset_balance_on_broke_spec_witness :
    (reset_balance_on_broke c9Broke).player_hand = [] ∧
    (reset_balance_on_broke c9Broke).dealer_hand = [] ∧
    (reset_balance_on_broke c9Broke).current_bet = 0 ∧
    (reset_balance_on_broke c9Broke).result_message = "" ∧
    (reset_balance_on_broke c9Broke).balance = 2000 ∧
    (reset_balance_on_broke c9Broke).game_state = "betting" ∧
    (reset_balance_on_broke c9Broke).deck = freshDeck := by
  obtain ⟨h1, h2, h3, h4, h5, h6, h7, -⟩ := reset_balance_on_broke_spec c9Broke
  exact ⟨h1, h2, h3, h4, h5, h6, h7 (by decide)⟩

/-- C10: in practice mode every operation of the state machine preserves
«wager = 0 and balance = starting balance» and leaves the balance
unchanged: `place_bet` always stores a wager of 0, and every balance
adjustment elsewhere is by the wager (or its 3:2 payout), hence by 0. -/
theorem practice_mode_balance_invariant (g : BlackjackGame)
    (hg : PracticeInv g) :
    (∀ amount : Int, PracticeInv (place_bet g amount).2 ∧
      (place_bet g amount).2.balance = g.balance) ∧
    (∀ g', deal_initial_hands g = some g' →
      PracticeInv g' ∧ g'.balance = g.balance) ∧
    (∀ r g', player_hit g = some (r, g') →
      PracticeInv g' ∧ g'.balance = g.balance) ∧
    (∀ r g', player_stand g = some (r, g') →
      PracticeInv g' ∧ g'.balance = g.balance) ∧
    (∀ s : List Card, PracticeInv (reset_for_new_hand s g) ∧
      (reset_for_new_hand s g).balance = g.balance) ∧
    (PracticeInv (reset_balance_on_broke g) ∧
      (reset_balance_on_broke g).balance = g.balance) := by
  obtain ⟨hm, hb, hs⟩ := hg
  refine ⟨?_, ?_, ?_, ?_, ?_, ?_⟩
  · intro amount
    unfold place_bet
    rw [if_pos hm]
    exact ⟨⟨hm, rfl, hs⟩, rfl⟩
  · intro g' h
    rcases hdeck : g.deck with _ | ⟨c1, _ | ⟨c2, _ | ⟨c3, _ | ⟨c4, rest⟩⟩⟩⟩ <;>
      simp only [deal_initial_hands, hdeck, Deck.deal, Option.bind_eq_bind,
        Option.none_bind, Option.some_bind] at h <;>
      try exact Option.noConfusion h
    split_ifs at h <;>
      simp only [Option.some.injEq] at h <;>
      subst h <;>
      refine ⟨⟨hm, hb, ?_⟩, ?_⟩ <;> dsimp only <;> omega
  · intro r g' h
    by_cases hstate : g.game_state ≠ "playing"
    · simp only [player_hit, if_pos hstate, Option.some.injEq,
        Prod.mk.injEq] at h
      obtain ⟨-, rfl⟩ := h
      exact ⟨⟨hm, hb, hs⟩, rfl⟩
    · simp only [player_hit, if_neg hstate] at h
      rcases hdeck : g.deck with _ | ⟨c, rest⟩ <;>
        simp only [hdeck, Deck.deal, Option.bind_eq_bind, Option.none_bind,
          Option.some_bind] at h <;>
        try exact Option.noConfusion h
      split_ifs at h <;>
        simp only [Option.some.injEq, Prod.mk.injEq] at h <;>
        obtain ⟨-, rfl⟩ := h <;>
        refine ⟨⟨hm, hb, ?_⟩, ?_⟩ <;> dsimp only <;> omega
  · intro r g' h
    by_cases hstate : g.game_state ≠ "playing"
    · simp only [player_stand, if_pos hstate, Option.some.injEq,
        Prod.mk.injEq] at h
      obtain ⟨-, rfl⟩ := h
      exact ⟨⟨hm, hb, hs⟩, rfl⟩
    · simp only [player_stand, if_neg hstate] at h
      rcases hdp : dealerPlay g.dealer_hand g.deck with - | ⟨dh, dk⟩ <;>
        simp only [hdp, Option.bind_eq_bind, Option.none_bind,
          Option.some_bind] at h <;>
        try exact Option.noConfusion h
      split_ifs at h <;>
        simp only [Option.some.injEq, Prod.mk.injEq] at h <;>
        obtain ⟨-, rfl⟩ := h <;>
        refine ⟨⟨hm, hb, ?_⟩, ?_⟩ <;> dsimp only <;> omega
  · intro sh
    unfold reset_for_new_hand
    dsimp only
    split_ifs with h
    · exact ⟨⟨hm, rfl, hs⟩, rfl⟩
    · exact ⟨⟨hm, rfl, hs⟩, rfl⟩
  · unfold reset_balance_on_broke
    dsimp only
    split_ifs with h
    · exact ⟨⟨hm, rfl, rfl⟩, hs.symm⟩
    · exact ⟨⟨hm, rfl, rfl⟩, hs.symm⟩

/-- Witness for C10 at a fresh practice-mode game: a bet of 500 is ignored,
the wager is stored as 0 and the balance is untouched. -/
theorem practice_mode_balance_invariant_witness :
    PracticeInv (place_bet c10State 500).2 ∧
    (place_bet c10State 500).2.balance = c10State.balance :=
  (practice_mode_balance_invariant c10State ⟨rfl, rfl, rfl⟩).1 500

end Blackjack
